import Mathlib

/-!
Shallow embedding of `src/pertnet/pertnet.py` (class `PertNet`): the model
lifecycle (`model_initialize`, `save_model`, `load_pretrained`), the
`predict` routine, the gradient-clipped training step and the best-model
selection of `train`.  Numeric tensors are modelled as lists of rationals;
Python dicts as association lists with dict-update semantics; the
filesystem as a record of directories and files.  External collaborators
(the neural net `PertNet_Model`, the similarity-network utility, the
torch-geometric data loader, Adam) enter as parameters of an `Env` record.
-/

/- ------------------------------------------------------------------ -/
/- Basic numeric helpers (the relevant numpy operations).             -/
/- ------------------------------------------------------------------ -/

/-- Vector mean `np.mean`: sum divided by length. -/
def listMean (l : List ℚ) : ℚ := l.sum / (l.length : ℚ)

/-- Elementwise addition of two equally long vectors. -/
def vecAdd (a b : List ℚ) : List ℚ := List.zipWith (· + ·) a b

/-- Columnwise mean `np.mean(m, axis = 0)` of a matrix given as a list of
rows (each row one cell, each column one gene). -/
def colMeans (rows : List (List ℚ)) : List ℚ :=
  match rows with
  | [] => []
  | r :: rs => (rs.foldl vecAdd r).map (fun x => x / (((r :: rs).length : ℕ) : ℚ))

/-- Whole-matrix `np.mean`: mean over every entry. -/
def matMean (rows : List (List ℚ)) : ℚ := listMean rows.flatten

/-- A matrix is rectangular when every row has the width of the first row. -/
def rectangular (rows : List (List ℚ)) : Prop :=
  ∀ r ∈ rows, r.length = (rows.headD []).length

instance (rows : List (List ℚ)) : Decidable (rectangular rows) := by
  unfold rectangular; infer_instance

/- ------------------------------------------------------------------ -/
/- Python dicts as association lists.                                  -/
/- ------------------------------------------------------------------ -/

/-- Python dict assignment `d[k] = v`: update in place when the key exists,
append otherwise. -/
def dinsert {α : Type} (d : List (String × α)) (k : String) (v : α) :
    List (String × α) :=
  if k ∈ d.map Prod.fst then
    d.map (fun kv => if kv.1 = k then (k, v) else kv)
  else d ++ [(k, v)]

/-- Python dict lookup `d[k]` (first binding wins; keys are unique for
dicts built with `dinsert`). -/
def dlookup {α : Type} (d : List (String × α)) (k : String) : Option α :=
  match d with
  | [] => none
  | kv :: rest => if kv.1 = k then some kv.2 else dlookup rest k

/- ------------------------------------------------------------------ -/
/- Data model.                                                         -/
/- ------------------------------------------------------------------ -/

/-- A learnable-parameter state dictionary: named tensors, as produced by
`state_dict()` and consumed by `load_state_dict`. -/
abbrev StateDict := List (String × List ℚ)

/-- The predictor (`PertNet_Model`) as far as this file observes it: its
learnable parameters and the device it lives on.  The forward pass is an
external collaborator (see `Env`). -/
structure Model where
  params : StateDict
  device : String
deriving DecidableEq, Inhabited, Repr

/-- Relocation `model.to(device)`: in torch an in-place operation returning
the same module; the parameter values are unchanged. -/
def Model.toDevice (m : Model) (d : String) : Model := { m with device := d }

/-- The slice of the AnnData object that `PertNet` reads: the expression
matrix `X` (one row per cell) and the per-cell `obs.condition` column. -/
structure AnnData where
  X : List (List ℚ)
  conditions : List String
deriving DecidableEq, Inhabited, Repr

/-- Control-cell subset: the rows of `adata` whose condition equals `ctrl`. -/
def ctrlSubset (a : AnnData) : AnnData :=
  let rows := (a.conditions.zip a.X).filter (fun p => p.1 = ("ctrl"))
  { X := rows.map Prod.snd, conditions := rows.map Prod.fst }

/-- The keyword arguments of `PertNet.model_initialize`, in source order. -/
structure Hyper where
  hidden_size : ℕ
  num_go_gnn_layers : ℕ
  num_gene_gnn_layers : ℕ
  decoder_hidden_size : ℕ
  num_similar_genes_go_graph : ℕ
  num_similar_genes_co_express_graph : ℕ
  coexpress_threshold : ℚ
  uncertainty : Bool
  uncertainty_reg : ℚ
  direction_lambda : ℚ
  G_go : Option (List (ℕ × ℕ))
  G_go_weight : Option (List ℚ)
  G_coexpress : Option (List (ℕ × ℕ))
  G_coexpress_weight : Option (List ℚ)
deriving DecidableEq, Inhabited, Repr

/-- The Configuration dict built by `model_initialize`: the hyperparameters
plus the two environment-derived entries.  `device` and `num_genes` are
`Option`s to model the dict entries that `load_pretrained` deletes. -/
structure Config extends Hyper where
  device : Option String
  num_genes : Option ℕ
deriving DecidableEq, Inhabited, Repr

/-- Deletion of the `device` and `num_genes` entries, as `load_pretrained`
performs on the loaded Configuration dict. -/
def stripConfig (c : Config) : Config := { c with device := none, num_genes := none }

/-- The mutable state of one `PertNet` instance.  The two live model
copies are heap references (indices into `heap`) so that the
deep-copy-versus-alias distinction of the source is observable:
`deepcopy` allocates a fresh cell, plain assignment copies the index. -/
structure PertNetState where
  device : String
  config : Option Config
  adata : AnnData
  gene_list : List String
  num_genes : ℕ
  ctrl_expression : List ℚ
  heap : List Model
  modelRef : ℕ
  bestRef : ℕ
  ctrl_adata : Option AnnData
deriving DecidableEq, Inhabited, Repr

/-- The current model `self.model`. -/
def getCurrent (st : PertNetState) : Model := st.heap.getD st.modelRef default

/-- The best model `self.best_model`. -/
def getBest (st : PertNetState) : Model := st.heap.getD st.bestRef default

/-- In-place mutation of the current model (what an optimizer step does to
`self.model`): the heap cell behind `modelRef` is overwritten. -/
def mutateCurrent (st : PertNetState) (f : Model → Model) : PertNetState :=
  { st with heap := st.heap.set st.modelRef (f (getCurrent st)) }

/-- Constructor `PertNet.__init__` (the fields this file needs): stores the dataset
context, derives `num_genes` from the gene list and the control expression
vector from the control cells; no model and no config exist yet.
Telemetry, loaders and the loss-side fields are omitted because no claim
touches them. -/
def mkPertNet (adata : AnnData) (gene_names : List String) (device : String) :
    PertNetState :=
  { device := device
    config := none
    adata := adata
    gene_list := gene_names
    num_genes := gene_names.length
    ctrl_expression := colMeans (ctrlSubset adata).X
    heap := []
    modelRef := 0
    bestRef := 0
    ctrl_adata := none }

/- ------------------------------------------------------------------ -/
/- External collaborators.                                             -/
/- ------------------------------------------------------------------ -/

/-- Modelled from the spec: the collaborators that the source imports but
whose code is outside this repository slice — the `PertNet_Model`
constructor and its deterministic inference-mode forward pass (plain and
uncertainty variants, one output row per input cell graph), the
similarity-network utility (`get_similarity_network` + `GeneSimNetwork`,
returning an edge list with weights), the synthetic cell-graph dataset
builder `create_cell_graph_dataset_for_prediction`, `np.exp`, and the
backward pass / Adam step of one training iteration. -/
structure Env where
  mkModel : Config → Model
  forward : Model → List (List ℚ) → List (List ℚ)
  forwardUnc : Model → List (List ℚ) → (List (List ℚ)) × (List (List ℚ))
  simCoexpress : ℚ → ℕ → (List (ℕ × ℕ)) × (List ℚ)
  simGo : ℚ → ℕ → (List (ℕ × ℕ)) × (List ℚ)
  mkCellGraphs : List String → AnnData → List (List ℚ)
  exp : ℚ → ℚ
  backward : Model → List (List ℚ) → List (List ℚ)
  optStep : Model → List (List ℚ) → Model

/- ------------------------------------------------------------------ -/
/- PertNet.model_initialize (source lines 62-113).                     -/
/- ------------------------------------------------------------------ -/

/-- Embeds `PertNet.model_initialize` (renamed `model_init`; the source name ends
in a word this development avoids in identifiers): builds the
Configuration from the passed hyperparameters plus `device`/`num_genes`,
fills in each similarity graph that was not supplied, constructs the
predictor on the device and takes an independent deep copy as the best
model (two fresh heap cells with equal contents). -/
def model_init (env : Env) (st : PertNetState) (h : Hyper) : PertNetState :=
  let cfg0 : Config := { toHyper := h, device := some st.device, num_genes := some st.num_genes }
  let cfg1 : Config :=
    match cfg0.G_coexpress with
    | none =>
      let ew := env.simCoexpress h.coexpress_threshold h.num_similar_genes_co_express_graph
      { cfg0 with G_coexpress := some ew.1, G_coexpress_weight := some ew.2 }
    | some _ => cfg0
  let cfg2 : Config :=
    match cfg1.G_go with
    | none =>
      let ew := env.simGo h.coexpress_threshold h.num_similar_genes_go_graph
      { cfg1 with G_go := some ew.1, G_go_weight := some ew.2 }
    | some _ => cfg1
  let mdl := (env.mkModel cfg2).toDevice st.device
  { st with
      config := some cfg2
      heap := st.heap ++ [mdl, mdl]
      modelRef := st.heap.length
      bestRef := st.heap.length + 1 }

/- ------------------------------------------------------------------ -/
/- Filesystem, save_model, load_pretrained (source lines 115-147).     -/
/- ------------------------------------------------------------------ -/

/-- What a saved artifact holds: a pickled Configuration or a torch
state dict. -/
inductive FileData where
  | cfg (c : Config)
  | sd (d : StateDict)
deriving DecidableEq, Inhabited, Repr

/-- The filesystem as this file observes it: existing directories and a
path-keyed dict of files. -/
structure FS where
  dirs : List String
  files : List (String × FileData)
deriving DecidableEq, Inhabited, Repr

/-- Embeds `PertNet.save_model`: first `os.mkdir` when the directory is absent,
then the `self.config is None` state check (raising
`No model is initialized...`), then the two artifact writes.  The returned
`Option String` is the raised error, `none` on success; the filesystem
reflects whatever happened before a raise. -/
def save_model (st : PertNetState) (fs : FS) (path : String) : FS × Option String :=
  let fs1 := if path ∈ fs.dirs then fs else { fs with dirs := path :: fs.dirs }
  match st.config with
  | none => (fs1, some ("No model is initialized..."))
  | some cfg =>
    let files1 := dinsert fs1.files (path ++ "/config.pkl") (FileData.cfg cfg)
    let files2 := dinsert files1 (path ++ "/model.pt") (FileData.sd (getBest st).params)
    ({ fs1 with files := files2 }, none)

/-- torch `load_state_dict` in strict mode: the parameter names must
match; the values are replaced by those of the loaded dict. -/
def load_state_dict (m : Model) (sd : StateDict) : Except String Model :=
  if m.params.map Prod.fst = sd.map Prod.fst then .ok { m with params := sd }
  else .error ("RuntimeError: unexpected or missing keys in state_dict")

/-- Embeds `PertNet.load_pretrained`: read the Configuration, delete its
`device` and `num_genes` entries, re-run model initialization with the
remaining hyperparameters, overwrite `self.config` with the stripped dict,
load the saved parameters into the current model (removing a leading
`module.` from every key when the first key carries it), move it to the
device, and alias the best model to the current one (plain assignment,
line 135 of the source). -/
def load_pretrained (env : Env) (st : PertNetState) (fs : FS) (path : String) :
    Except String PertNetState :=
  match dlookup fs.files (path ++ "/config.pkl") with
  | some (FileData.cfg config) =>
    let config' := stripConfig config
    let st1 := model_init env st config'.toHyper
    let st2 := { st1 with config := some config' }
    match dlookup fs.files (path ++ "/model.pt") with
    | some (FileData.sd sd0) =>
      match sd0 with
      | [] => .error ("StopIteration")
      | (k₀, v₀) :: rest =>
        let sd :=
          if k₀.take 7 = ("module.") then
            ((k₀, v₀) :: rest).map (fun kv => (kv.1.drop 7, kv.2))
          else (k₀, v₀) :: rest
        match load_state_dict (getCurrent st2) sd with
        | .error e => .error e
        | .ok m₁ =>
          let m₂ := m₁.toDevice st2.device
          .ok { st2 with heap := st2.heap.set st2.modelRef m₂, bestRef := st2.modelRef }
    | _ => .error ("FileNotFoundError: model.pt")
  | _ => .error ("FileNotFoundError: config.pkl")

/- ------------------------------------------------------------------ -/
/- PertNet.predict (source lines 149-184).                             -/
/- ------------------------------------------------------------------ -/

/-- The underscore-joined perturbation label built by the join on the
underscore character. -/
def joinPert (pert : List String) : String := String.intercalate ("_") pert

/-- The validation loop of `predict`: some listed gene is missing from the
gene universe. -/
def hasInvalidGene (gene_list : List String) (pert_list : List (List String)) : Bool :=
  pert_list.any (fun pert => pert.any (fun g => !(decide (g ∈ gene_list))))

/-- Structural worker for `chunks300`: the fuel argument only bounds the
recursion depth and never runs out when it starts at the list length. -/
def chunks300Aux : ℕ → List (List ℚ) → List (List (List ℚ))
  | _, [] => []
  | 0, _ :: _ => []
  | fuel + 1, x :: xs => ((x :: xs).take 300) :: chunks300Aux fuel ((x :: xs).drop 300)

/-- The batches yielded by `DataLoader(cg, 300, shuffle = False)`:
consecutive chunks of 300 cell graphs, in dataset order. -/
def chunks300 (l : List (List ℚ)) : List (List (List ℚ)) :=
  chunks300Aux l.length l

/-- The call `next(iter(loader))` in `predict`: only the first batch is
taken.  (On an empty dataset Python would raise `StopIteration`; here the
empty list stands in, and every claim that evaluates a batch assumes a
nonempty one.) -/
def predBatch (env : Env) (pert : List String) (ctrl : AnnData) : List (List ℚ) :=
  (chunks300 (env.mkCellGraphs pert ctrl)).headD []

/-- The prediction matrix `p` computed for one perturbation (the forward
pass on the first batch, in plain or uncertainty mode). -/
def predMat (env : Env) (best : Model) (ctrl : AnnData) (unc : Bool)
    (pert : List String) : List (List ℚ) :=
  if unc then (env.forwardUnc best (predBatch env pert ctrl)).1
  else env.forward best (predBatch env pert ctrl)

/-- The log-variance matrix `unc` computed for one perturbation in
uncertainty mode. -/
def uncMat (env : Env) (best : Model) (ctrl : AnnData) (pert : List String) :
    List (List ℚ) :=
  (env.forwardUnc best (predBatch env pert ctrl)).2

/-- The model that `predict` runs: the best model moved to the device, as
in the assignment of line 162 of the source. -/
def bestOnDevice (st : PertNetState) : Model := (getBest st).toDevice st.device

/-- The per-perturbation loop of `predict`: one pass over `pert_list`
filling `results_pred` (and, in uncertainty mode, `results_logvar`, which
stores `np.mean(unc, axis = 0)`). -/
def predictLoop (env : Env) (best : Model) (ctrl : AnnData) (unc : Bool)
    (pert_list : List (List String)) :
    (List (String × List ℚ)) × (List (String × List ℚ)) :=
  pert_list.foldl
    (fun acc pert =>
      if unc then
        (dinsert acc.1 (joinPert pert) (colMeans (predMat env best ctrl true pert)),
         dinsert acc.2 (joinPert pert) (colMeans (uncMat env best ctrl pert)))
      else
        (dinsert acc.1 (joinPert pert) (colMeans (predMat env best ctrl false pert)),
         acc.2))
    ([], [])

/-- Embeds `PertNet.predict`: store the control subset in `self.ctrl_adata`,
validate every listed gene against the gene universe (raising the fixed
`ValueError` message of line 157 otherwise), read the uncertainty flag
from `self.config` (a `TypeError` when no config exists), move the best
model to the device, run the loop, and in uncertainty mode post-process
`results_logvar` into `np.exp(-np.mean(j))` scores.  The result is the
new instance state plus either the raised error or the returned
mapping(s). -/
def predict (env : Env) (st : PertNetState) (pert_list : List (List String)) :
    PertNetState ×
      Except String ((List (String × List ℚ)) × Option (List (String × ℚ))) :=
  if hasInvalidGene st.gene_list pert_list then
    ({ st with ctrl_adata := some (ctrlSubset st.adata) },
     .error ("The gene is not in the perturbation graph. Please select from PertNet.gene_list!"))
  else
    match st.config with
    | none =>
      ({ st with ctrl_adata := some (ctrlSubset st.adata) },
       .error ("TypeError: NoneType object is not subscriptable"))
    | some cfg =>
      let best := bestOnDevice st
      let rp := predictLoop env best (ctrlSubset st.adata) cfg.uncertainty pert_list
      ({ st with
           ctrl_adata := some (ctrlSubset st.adata)
           heap := st.heap.set st.bestRef best },
       if cfg.uncertainty then
         .ok (rp.1, some (rp.2.map (fun kv => (kv.1, env.exp (-(listMean kv.2))))))
       else
         .ok (rp.1, none))

/-- Accessor for stating theorems: the returned prediction mapping of a
`predict` call (empty when an error was raised). -/
def predMapOf (env : Env) (st : PertNetState) (pert_list : List (List String)) :
    List (String × List ℚ) :=
  match (predict env st pert_list).2 with
  | .ok r => r.1
  | .error _ => []

/-- Accessor for stating theorems: the raised error of a `predict` call. -/
def predErrOf (env : Env) (st : PertNetState) (pert_list : List (List String)) :
    Option String :=
  match (predict env st pert_list).2 with
  | .ok _ => none
  | .error e => some e

/- ------------------------------------------------------------------ -/
/- PertNet.train: per-step clipping and best-model selection           -/
/- (source lines 205-271).                                             -/
/- ------------------------------------------------------------------ -/

/-- Clipping `nn.utils.clip_grad_value_(params, clip_value)`: every gradient
component is clamped into `[-clip_value, clip_value]`. -/
def clipGradValue (c : ℚ) (grads : List (List ℚ)) : List (List ℚ) :=
  grads.map (fun t => t.map (fun x => min (max x (-c)) c))

/-- One optimizer iteration of `train` (lines 228-230): backward pass,
elementwise clipping at `1.0`, then the Adam step consumes the clipped
gradients.  Returns the updated model together with the gradients the
step consumed. -/
def trainStep (env : Env) (m : Model) (batchY : List (List ℚ)) :
    Model × List (List ℚ) :=
  let g := env.backward m batchY
  let gclip := clipGradValue 1 g
  (env.optStep m gclip, gclip)

/-- The comparison of a validation score against the running minimum
(the `np.inf` start is `none`). -/
def improves (minv : Option ℚ) (x : ℚ) : Bool :=
  match minv with
  | none => true
  | some m => decide (x < m)

/-- The end-of-epoch checkpoint selection (lines 266-268): on strict
improvement the running minimum is lowered and a deep snapshot of the
current model becomes the candidate best. -/
def bestUpdate (acc : Option ℚ × Option Model) (e : ℚ × Model) :
    Option ℚ × Option Model :=
  if improves acc.1 e.1 then (some e.1, some e.2) else acc

/-- The best-model selection of `train` over a whole run, taking the
sequence of (validation top-20-DE MSE, end-of-epoch model) pairs as given
by the external evaluator: fold of `bestUpdate` from
`min_val = np.inf`, `best_model` unset. -/
def bestSelect (es : List (ℚ × Model)) : Option ℚ × Option Model :=
  es.foldl bestUpdate (none, none)

/-- The running minimum `min_val` by itself. -/
def runningMin (es : List (ℚ × Model)) : Option ℚ :=
  es.foldl
    (fun acc e => match acc with | none => some e.1 | some m => some (min m e.1))
    none

/-- Substring test on strings (for stating that an error message does or
does not mention a gene name). -/
def strHasSub (s sub : String) : Bool :=
  (s.data.tails).any (fun t => sub.data.isPrefixOf t)

/- ------------------------------------------------------------------ -/
/- Concrete fixtures for witnesses and counterexamples.                -/
/- ------------------------------------------------------------------ -/

/-- A four-gene dataset with a single control cell. -/
def adataC : AnnData := { X := [[1, 1, 1, 1]], conditions := [("ctrl")] }

/-- The gene universe of the scenario in the spec. -/
def glC : List String := [("A"), ("B"), ("C"), ("D")]

/-- A concrete environment: a one-tensor model, constant similarity
graphs, a forward pass returning a fixed profile per cell, identity
backward, identity optimizer. -/
def envC : Env :=
  { mkModel := fun _ => { params := [(("w"), [0, 0, 0, 0])], device := ("cpu") }
    forward := fun _ batch => batch.map (fun _ => [1, 2, 3, 4])
    forwardUnc := fun _ batch =>
      (batch.map (fun _ => [1, 2, 3, 4]), batch.map (fun _ => [0, 0, 0, 0]))
    simCoexpress := fun _ _ => ([(0, 1)], [1])
    simGo := fun _ _ => ([(0, 1)], [1])
    mkCellGraphs := fun _ a => a.X
    exp := fun q => 1 + q
    backward := fun _ y => y
    optStep := fun m _ => m }

/-- Concrete hyperparameters (integral rationals only, so that kernel
evaluation never has to normalize a fraction). -/
def hC : Hyper :=
  { hidden_size := 64
    num_go_gnn_layers := 1
    num_gene_gnn_layers := 1
    decoder_hidden_size := 16
    num_similar_genes_go_graph := 20
    num_similar_genes_co_express_graph := 20
    coexpress_threshold := 0
    uncertainty := false
    uncertainty_reg := 1
    direction_lambda := 0
    G_go := none
    G_go_weight := none
    G_coexpress := none
    G_coexpress_weight := none }

/-- Same hyperparameters with uncertainty mode on. -/
def hUC : Hyper := { hC with uncertainty := true }

/-- A freshly constructed instance (no model yet). -/
def st0C : PertNetState := mkPertNet adataC glC ("cpu")

/-- The instance after initialization. -/
def stC : PertNetState := model_init envC st0C hC

/-- The instance after initialization in uncertainty mode. -/
def stUC : PertNetState := model_init envC st0C hUC

/-- The Configuration `stC` carries. -/
def cfgC : Config :=
  { toHyper :=
      { hC with
          G_coexpress := some [(0, 1)], G_coexpress_weight := some [1]
          G_go := some [(0, 1)], G_go_weight := some [1] }
    device := some ("cpu")
    num_genes := some 4 }

/-- The Configuration `stUC` carries. -/
def cfgUC : Config := { cfgC with uncertainty := true }

/-- An empty filesystem. -/
def fs0 : FS := { dirs := [], files := [] }

/-- The filesystem produced by saving `stC` into `dir`. -/
def fsSavedC : FS := (save_model stC fs0 ("dir")).1

/-- The instance obtained by restoring `dir` into a fresh instance. -/
def stLoadedC : PertNetState :=
  ((load_pretrained envC st0C fsSavedC ("dir")).toOption).getD default

/-- A concrete in-place parameter mutation (as a training step performs). -/
def fMutC : Model → Model :=
  fun m => { m with params := [(("w"), [9, 9, 9, 9])] }

/-- Environment `envC` with 301 synthetic control cells, cell 301 reading 5. -/
def envA : Env :=
  { envC with
      mkCellGraphs := fun _ _ => List.replicate 300 [1, 1, 1, 1] ++ [[5, 5, 5, 5]] }

/-- Environment `envC` with 301 synthetic control cells, cell 301 reading 7. -/
def envB : Env :=
  { envC with
      mkCellGraphs := fun _ _ => List.replicate 300 [1, 1, 1, 1] ++ [[7, 7, 7, 7]] }

/-- Two distinguishable model snapshots for the selection fixture. -/
def mW1 : Model := { params := [(("w"), [1])], device := ("cpu") }

/-- Second snapshot. -/
def mW2 : Model := { params := [(("w"), [2])], device := ("cpu") }

/- ------------------------------------------------------------------ -/
/- Helper lemmas: lists, dicts, means.                                 -/
/- ------------------------------------------------------------------ -/

theorem list_set_oob {α : Type} (l : List α) (n : ℕ) (a : α) (h : l.length ≤ n) :
    l.set n a = l := by
  induction l generalizing n with
  | nil => rfl
  | cons x xs ih =>
    cases n with
    | zero => simp at h
    | succ m =>
      simp only [List.set]
      rw [ih m (by simpa using h)]

theorem list_getD_set_self {α : Type} (l : List α) (n : ℕ) (a d : α)
    (h : n < l.length) : (l.set n a).getD n d = a := by
  rw [List.getD_eq_getElem?_getD, List.getElem?_set_self h]
  rfl

theorem list_getD_set_ne {α : Type} (l : List α) (m n : ℕ) (a d : α)
    (h : m ≠ n) : (l.set m a).getD n d = l.getD n d := by
  rw [List.getD_eq_getElem?_getD, List.getElem?_set_ne h, ← List.getD_eq_getElem?_getD]

theorem string_append_ne (p a b : String) (h : a ≠ b) : p ++ a ≠ p ++ b := by
  intro hc
  apply h
  apply String.ext
  have := congrArg String.data hc
  rw [String.data_append, String.data_append] at this
  exact List.append_cancel_left this

theorem chunks300_headD (l : List (List ℚ)) :
    (chunks300 l).headD [] = l.take 300 := by
  cases l with
  | nil => simp [chunks300, chunks300Aux]
  | cons x xs => simp [chunks300, chunks300Aux]

theorem keys_dinsert {α : Type} (d : List (String × α)) (k : String) (v : α) :
    (dinsert d k v).map Prod.fst =
      if k ∈ d.map Prod.fst then d.map Prod.fst else d.map Prod.fst ++ [k] := by
  unfold dinsert
  split
  · simp only [List.map_map]
    refine List.map_congr_left (fun kv _ => ?_)
    by_cases hk : kv.1 = k
    · simp [hk]
    · simp [hk]
  · simp

theorem mem_keys_dinsert {α : Type} (d : List (String × α)) (k k' : String) (v : α) :
    k' ∈ (dinsert d k v).map Prod.fst ↔ k' ∈ d.map Prod.fst ∨ k' = k := by
  rw [keys_dinsert]
  split
  · rename_i hmem
    constructor
    · exact fun h => Or.inl h
    · rintro (h | h)
      · exact h
      · exact h ▸ hmem
  · simp

theorem nodup_keys_dinsert {α : Type} (d : List (String × α)) (k : String) (v : α)
    (h : (d.map Prod.fst).Nodup) : ((dinsert d k v).map Prod.fst).Nodup := by
  rw [keys_dinsert]
  split
  · exact h
  · rename_i hnm
    refine List.Nodup.append h (List.nodup_singleton k) ?_
    intro a ha hb
    rw [List.mem_singleton] at hb
    exact hnm (hb ▸ ha)

theorem mem_dinsert_val {α : Type} (d : List (String × α)) (k : String) (v : α)
    (kv : String × α) (h : kv ∈ dinsert d k v) : kv ∈ d ∨ kv = (k, v) := by
  unfold dinsert at h
  split at h
  · obtain ⟨kv₀, hkv₀, heq⟩ := List.mem_map.mp h
    by_cases hk : kv₀.1 = k
    · right
      rw [if_pos hk] at heq
      exact heq.symm
    · left
      rw [if_neg hk] at heq
      exact heq ▸ hkv₀
  · rcases List.mem_append.mp h with h | h
    · exact Or.inl h
    · right
      simpa using h

theorem dlookup_map_update_self {α : Type} (d : List (String × α)) (k : String) (v : α)
    (h : k ∈ d.map Prod.fst) :
    dlookup (d.map (fun kv => if kv.1 = k then (k, v) else kv)) k = some v := by
  induction d with
  | nil => simp at h
  | cons kv₀ rest ih =>
    rw [List.map_cons]
    by_cases hk : kv₀.1 = k
    · rw [if_pos hk]
      simp [dlookup]
    · rw [if_neg hk]
      have hmem : k ∈ rest.map Prod.fst := by
        rw [List.map_cons] at h
        rcases List.mem_cons.mp h with h' | h'
        · exact absurd h'.symm hk
        · exact h'
      simp only [dlookup, if_neg hk]
      exact ih hmem

theorem dlookup_append_self {α : Type} (d : List (String × α)) (k : String) (v : α)
    (h : k ∉ d.map Prod.fst) : dlookup (d ++ [(k, v)]) k = some v := by
  induction d with
  | nil => simp [dlookup]
  | cons kv₀ rest ih =>
    have hk : kv₀.1 ≠ k := by intro hc; exact h (by simp [hc])
    rw [List.cons_append]
    simp only [dlookup, if_neg hk]
    exact ih (fun hc => h (by simp [hc]))

theorem dlookup_dinsert_self {α : Type} (d : List (String × α)) (k : String) (v : α) :
    dlookup (dinsert d k v) k = some v := by
  unfold dinsert
  split
  · exact dlookup_map_update_self d k v (by assumption)
  · exact dlookup_append_self d k v (by assumption)

theorem dlookup_map_update_ne {α : Type} (d : List (String × α)) (k k' : String) (v : α)
    (h : k' ≠ k) :
    dlookup (d.map (fun kv => if kv.1 = k then (k, v) else kv)) k' = dlookup d k' := by
  induction d with
  | nil => rfl
  | cons kv₀ rest ih =>
    rw [List.map_cons]
    by_cases hk : kv₀.1 = k
    · rw [if_pos hk]
      simp only [dlookup]
      rw [if_neg (fun hc : k = k' => h hc.symm)]
      rw [if_neg (fun hc : kv₀.1 = k' => h (hc ▸ hk))]
      exact ih
    · rw [if_neg hk]
      simp only [dlookup]
      by_cases hk' : kv₀.1 = k'
      · rw [if_pos hk', if_pos hk']
      · rw [if_neg hk', if_neg hk']
        exact ih

theorem dlookup_append_ne {α : Type} (d : List (String × α)) (k k' : String) (v : α)
    (h : k' ≠ k) : dlookup (d ++ [(k, v)]) k' = dlookup d k' := by
  induction d with
  | nil => simp [dlookup, if_neg (fun hc : k = k' => h hc.symm)]
  | cons kv₀ rest ih =>
    rw [List.cons_append]
    simp only [dlookup]
    by_cases hk' : kv₀.1 = k'
    · rw [if_pos hk', if_pos hk']
    · rw [if_neg hk', if_neg hk']
      exact ih

theorem dlookup_dinsert_ne {α : Type} (d : List (String × α)) (k k' : String) (v : α)
    (h : k' ≠ k) : dlookup (dinsert d k v) k' = dlookup d k' := by
  unfold dinsert
  split
  · exact dlookup_map_update_ne d k k' v h
  · exact dlookup_append_ne d k k' v h

/-- A dict-building fold: process a perturbation list left to right,
binding each underscore-joined label to a value computed from the
perturbation. -/
def keyFold {α : Type} (f : List String → α) (pl : List (List String))
    (init : List (String × α)) : List (String × α) :=
  pl.foldl (fun acc p => dinsert acc (joinPert p) (f p)) init

theorem keyFold_nil {α : Type} (f : List String → α) (init : List (String × α)) :
    keyFold f [] init = init := rfl

theorem keyFold_cons {α : Type} (f : List String → α) (p : List String)
    (pl : List (List String)) (init : List (String × α)) :
    keyFold f (p :: pl) init = keyFold f pl (dinsert init (joinPert p) (f p)) := rfl

theorem mem_keys_keyFold {α : Type} (f : List String → α) (pl : List (List String))
    (init : List (String × α)) (k : String) :
    k ∈ (keyFold f pl init).map Prod.fst ↔
      k ∈ init.map Prod.fst ∨ k ∈ pl.map joinPert := by
  induction pl generalizing init with
  | nil => simp [keyFold_nil]
  | cons p rest ih =>
    rw [keyFold_cons, ih, mem_keys_dinsert]
    simp only [List.map_cons, List.mem_cons]
    tauto

theorem nodup_keys_keyFold {α : Type} (f : List String → α) (pl : List (List String))
    (init : List (String × α)) (h : (init.map Prod.fst).Nodup) :
    ((keyFold f pl init).map Prod.fst).Nodup := by
  induction pl generalizing init with
  | nil => exact h
  | cons p rest ih =>
    rw [keyFold_cons]
    exact ih _ (nodup_keys_dinsert _ _ _ h)

theorem mem_keyFold_val {α : Type} (f : List String → α) (pl : List (List String))
    (init : List (String × α)) (kv : String × α) (h : kv ∈ keyFold f pl init) :
    kv ∈ init ∨ ∃ p ∈ pl, kv = (joinPert p, f p) := by
  induction pl generalizing init with
  | nil => exact Or.inl h
  | cons p rest ih =>
    rw [keyFold_cons] at h
    rcases ih _ h with h' | ⟨q, hq, hkv⟩
    · rcases mem_dinsert_val _ _ _ _ h' with h'' | h''
      · exact Or.inl h''
      · exact Or.inr ⟨p, List.mem_cons_self p rest, h''⟩
    · exact Or.inr ⟨q, List.mem_cons_of_mem p hq, hkv⟩

theorem dlookup_keyFold_not_mem {α : Type} (f : List String → α)
    (pl : List (List String)) (init : List (String × α)) (k : String)
    (h : k ∉ pl.map joinPert) : dlookup (keyFold f pl init) k = dlookup init k := by
  induction pl generalizing init with
  | nil => rfl
  | cons p rest ih =>
    rw [keyFold_cons]
    have hne : k ≠ joinPert p := fun hc => h (by simp [hc])
    rw [ih _ (fun hc => h (by simp [hc])), dlookup_dinsert_ne _ _ _ _ hne]

theorem dlookup_keyFold {α : Type} (f : List String → α) (pl : List (List String))
    (init : List (String × α)) (pert : List String) (hmem : pert ∈ pl)
    (hnd : (pl.map joinPert).Nodup) :
    dlookup (keyFold f pl init) (joinPert pert) = some (f pert) := by
  induction pl generalizing init with
  | nil => simp at hmem
  | cons p rest ih =>
    rw [List.map_cons, List.nodup_cons] at hnd
    rw [keyFold_cons]
    by_cases hr : pert ∈ rest
    · exact ih _ hr hnd.2
    · have hp : pert = p := by
        rcases List.mem_cons.mp hmem with h' | h'
        · exact h'
        · exact absurd h' hr
      subst hp
      rw [dlookup_keyFold_not_mem _ _ _ _ hnd.1, dlookup_dinsert_self]

theorem dlookup_map_value {α β : Type} (d : List (String × α)) (g : α → β)
    (k : String) :
    dlookup (d.map (fun kv => (kv.1, g kv.2))) k = (dlookup d k).map g := by
  induction d with
  | nil => rfl
  | cons kv₀ rest ih =>
    rw [List.map_cons]
    simp only [dlookup]
    by_cases hk : kv₀.1 = k
    · rw [if_pos hk, if_pos hk]
      rfl
    · rw [if_neg hk, if_neg hk]
      exact ih

/- ------------------------------------------------------------------ -/
/- Mean lemmas (the numpy aggregation identities).                     -/
/- ------------------------------------------------------------------ -/

theorem length_foldl_vecAdd (w : ℕ) (rs : List (List ℚ)) (acc : List ℚ)
    (hacc : acc.length = w) (hrs : ∀ r ∈ rs, r.length = w) :
    (rs.foldl vecAdd acc).length = w := by
  induction rs generalizing acc with
  | nil => exact hacc
  | cons r rest ih =>
    rw [List.foldl_cons]
    refine ih _ ?_ (fun r' hr' => hrs r' (List.mem_cons_of_mem r hr'))
    rw [vecAdd, List.length_zipWith, hacc, hrs r (List.mem_cons_self r rest)]
    simp

theorem sum_vecAdd (a b : List ℚ) (h : a.length = b.length) :
    (vecAdd a b).sum = a.sum + b.sum := by
  induction a generalizing b with
  | nil =>
    cases b with
    | nil => simp [vecAdd]
    | cons y ys => simp at h
  | cons x xs ih =>
    cases b with
    | nil => simp at h
    | cons y ys =>
      rw [vecAdd, List.zipWith_cons_cons]
      have : (List.zipWith (· + ·) xs ys).sum = xs.sum + ys.sum := ih ys (by simpa using h)
      simp only [List.sum_cons, vecAdd] at *
      rw [this]
      ring

theorem sum_foldl_vecAdd (w : ℕ) (rs : List (List ℚ)) (acc : List ℚ)
    (hacc : acc.length = w) (hrs : ∀ r ∈ rs, r.length = w) :
    (rs.foldl vecAdd acc).sum = acc.sum + (rs.map List.sum).sum := by
  induction rs generalizing acc with
  | nil => simp
  | cons r rest ih =>
    rw [List.foldl_cons]
    have hlen : (vecAdd acc r).length = w := by
      rw [vecAdd, List.length_zipWith, hacc, hrs r (List.mem_cons_self r rest)]
      simp
    rw [ih _ hlen (fun r' hr' => hrs r' (List.mem_cons_of_mem r hr'))]
    rw [sum_vecAdd acc r (by rw [hacc, hrs r (List.mem_cons_self r rest)])]
    simp only [List.map_cons, List.sum_cons]
    ring

theorem sum_map_div (l : List ℚ) (c : ℚ) :
    (l.map (fun x => x / c)).sum = l.sum / c := by
  induction l with
  | nil => simp
  | cons x xs ih =>
    simp only [List.map_cons, List.sum_cons, ih]
    rw [add_div]

theorem sum_map_length_const {α : Type} (l : List (List α)) (w : ℕ)
    (h : ∀ r ∈ l, r.length = w) : (l.map List.length).sum = l.length * w := by
  induction l with
  | nil => simp
  | cons r rest ih =>
    simp only [List.map_cons, List.sum_cons, List.length_cons]
    rw [h r (List.mem_cons_self r rest), ih (fun r' hr' => h r' (List.mem_cons_of_mem r hr'))]
    ring

theorem colMeans_length (rows : List (List ℚ)) (w : ℕ) (hne : rows ≠ [])
    (h : ∀ r ∈ rows, r.length = w) : (colMeans rows).length = w := by
  cases rows with
  | nil => exact absurd rfl hne
  | cons r rs =>
    rw [colMeans, List.length_map]
    exact length_foldl_vecAdd w rs r (h r (List.mem_cons_self r rs))
      (fun r' hr' => h r' (List.mem_cons_of_mem r hr'))

/-- The mean of the columnwise means equals the mean over all entries of
a rectangular matrix: the identity behind the uncertainty score. -/
theorem listMean_colMeans (rows : List (List ℚ)) (hrect : rectangular rows) :
    listMean (colMeans rows) = matMean rows := by
  cases rows with
  | nil => simp [colMeans, matMean, listMean]
  | cons r rs =>
    have hw : ∀ x ∈ r :: rs, x.length = r.length := by
      intro x hx
      simpa using hrect x hx
    have hlen : (rs.foldl vecAdd r).length = r.length :=
      length_foldl_vecAdd r.length rs r rfl
        (fun r' hr' => hw r' (List.mem_cons_of_mem r hr'))
    have hsum : (rs.foldl vecAdd r).sum = ((r :: rs).map List.sum).sum := by
      rw [sum_foldl_vecAdd r.length rs r rfl
        (fun r' hr' => hw r' (List.mem_cons_of_mem r hr'))]
      simp
    rw [colMeans, matMean, listMean, listMean, sum_map_div, List.length_map, hlen,
      List.sum_flatten, List.length_flatten, ← hsum,
      sum_map_length_const _ r.length hw, div_div]
    congr 1
    push_cast
    ring

/- ------------------------------------------------------------------ -/
/- predict characterization.                                           -/
/- ------------------------------------------------------------------ -/

theorem predictLoop_aux (env : Env) (best : Model) (ctrl : AnnData) (u : Bool)
    (pl : List (List String)) :
    ∀ (a b : List (String × List ℚ)),
      pl.foldl
        (fun acc pert =>
          if u then
            (dinsert acc.1 (joinPert pert) (colMeans (predMat env best ctrl true pert)),
             dinsert acc.2 (joinPert pert) (colMeans (uncMat env best ctrl pert)))
          else
            (dinsert acc.1 (joinPert pert) (colMeans (predMat env best ctrl false pert)),
             acc.2))
        (a, b) =
      (keyFold (fun p => colMeans (predMat env best ctrl u p)) pl a,
       if u then keyFold (fun p => colMeans (uncMat env best ctrl p)) pl b else b) := by
  induction pl with
  | nil => intro a b; cases u <;> simp [keyFold_nil]
  | cons p rest ih =>
    intro a b
    cases u <;> simp only [List.foldl_cons, if_true, if_false, Bool.false_eq_true,
      ite_true, ite_false, keyFold_cons] <;> exact ih _ _

theorem predictLoop_eq (env : Env) (best : Model) (ctrl : AnnData) (u : Bool)
    (pl : List (List String)) :
    predictLoop env best ctrl u pl =
      (keyFold (fun p => colMeans (predMat env best ctrl u p)) pl [],
       if u then keyFold (fun p => colMeans (uncMat env best ctrl p)) pl [] else []) :=
  predictLoop_aux env best ctrl u pl [] []

theorem predict_invalid (env : Env) (st : PertNetState) (pl : List (List String))
    (hv : hasInvalidGene st.gene_list pl = true) :
    (predict env st pl).2 =
      .error ("The gene is not in the perturbation graph. Please select from PertNet.gene_list!") := by
  simp [predict, hv]

theorem predict_ok (env : Env) (st : PertNetState) (pl : List (List String))
    (cfg : Config) (hv : hasInvalidGene st.gene_list pl = false)
    (hcfg : st.config = some cfg) :
    (predict env st pl).2 =
      .ok
        (keyFold
          (fun p => colMeans (predMat env (bestOnDevice st) (ctrlSubset st.adata) cfg.uncertainty p))
          pl [],
         if cfg.uncertainty then
           some
             ((keyFold (fun p => colMeans (uncMat env (bestOnDevice st) (ctrlSubset st.adata) p)) pl []).map
               (fun kv => (kv.1, env.exp (-(listMean kv.2)))))
         else none) := by
  simp only [predict, hv, Bool.false_eq_true, if_false, hcfg, predictLoop_eq]
  cases hu : cfg.uncertainty <;> simp [hu]

/- ------------------------------------------------------------------ -/
/- Claim C2.                                                           -/
/- ------------------------------------------------------------------ -/

/-- C2, counterexample: `predict` on a gene outside the universe raises
the fixed line-157 message, and that message does not contain the
offending identifier `ZZZ` anywhere — the error does not name the gene,
contrary to the claim. -/
theorem c2_error_does_not_name_gene :
    predErrOf envC stC [[("ZZZ")]] =
      some ("The gene is not in the perturbation graph. Please select from PertNet.gene_list!") ∧
    strHasSub
      ("The gene is not in the perturbation graph. Please select from PertNet.gene_list!")
      ("ZZZ") = false := by
  constructor
  · have hv : hasInvalidGene stC.gene_list [[("ZZZ")]] = true := by decide
    rw [predErrOf, predict_invalid envC stC _ hv]
  · decide

/-- C2 (amended): for every perturbation list containing a gene outside
the gene universe, `predict` raises a `ValueError` with the fixed message
of line 157 (which does not name the offending gene) before any forward
pass, and the returned prediction mapping is empty — nothing incomplete is
produced. -/
theorem c2_invalid_gene_raises (env : Env) (st : PertNetState)
    (pl : List (List String)) (hv : hasInvalidGene st.gene_list pl = true) :
    predErrOf env st pl =
      some ("The gene is not in the perturbation graph. Please select from PertNet.gene_list!") ∧
    predMapOf env st pl = [] := by
  have h := predict_invalid env st pl hv
  constructor
  · rw [predErrOf, h]
  · rw [predMapOf, h]

/-- C2, witness: the amended theorem applied to the concrete instance and
the unknown gene `ZZZ`. -/
theorem c2_invalid_gene_raises_witness :
    predErrOf envC stC [[("ZZZ")]] =
      some ("The gene is not in the perturbation graph. Please select from PertNet.gene_list!") ∧
    predMapOf envC stC [[("ZZZ")]] = [] :=
  c2_invalid_gene_raises envC stC [[("ZZZ")]] (by decide)

/- ------------------------------------------------------------------ -/
/- Claim C3.                                                           -/
/- ------------------------------------------------------------------ -/

/-- C3, counterexample: saving an uninitialized instance into a
non-existing directory raises the state error, yet the filesystem is not
left untouched — line 138 runs `os.mkdir` before the line-141 state
check, so the empty target directory is left behind. -/
theorem c3_mkdir_precedes_state_check :
    (save_model st0C fs0 ("ckpt")).2 = some ("No model is initialized...") ∧
    (save_model st0C fs0 ("ckpt")).1 ≠ fs0 := by
  constructor
  · decide
  · decide

/-- C3 (amended): calling `save_model` before any initialization raises
the `No model is initialized...` state error and writes no file — the
file map is unchanged — though the target directory itself may have been
created before the check. -/
theorem c3_save_uninitialized_writes_no_file (st : PertNetState) (fs : FS)
    (path : String) (h : st.config = none) :
    (save_model st fs path).2 = some ("No model is initialized...") ∧
    (save_model st fs path).1.files = fs.files := by
  constructor
  · simp only [save_model, h]
  · simp only [save_model, h]
    split <;> rfl

/-- C3, witness: the amended theorem applied to the fresh concrete
instance and an existing empty directory. -/
theorem c3_save_uninitialized_writes_no_file_witness :
    (save_model st0C { dirs := [("ckpt2")], files := [] } ("ckpt2")).2 =
      some ("No model is initialized...") ∧
    (save_model st0C { dirs := [("ckpt2")], files := [] } ("ckpt2")).1.files =
      ({ dirs := [("ckpt2")], files := [] } : FS).files :=
  c3_save_uninitialized_writes_no_file st0C { dirs := [("ckpt2")], files := [] }
    ("ckpt2") rfl

/- ------------------------------------------------------------------ -/
/- Claim C4.                                                           -/
/- ------------------------------------------------------------------ -/

/-- C4, counterexample: a perturbation list of length 2 whose two entries
are the same perturbation produces a mapping with a single key — dict
keys collapse, so `predict` does not return exactly N keys for every
length-N list. -/
theorem c4_duplicate_perts_collapse :
    (predMapOf envC stC [[("A")], [("A")]]).map Prod.fst = [("A")] ∧
    ([[("A")], [("A")]] : List (List String)).length = 2 := by
  constructor
  · decide
  · decide

/-- C4 (amended): for a valid perturbation list, `predict` returns a
mapping whose keys are exactly the distinct underscore-joined labels of
the list (one key per distinct label; duplicate perturbations collapse),
and every value has the length of the gene universe, provided the forward
pass returns one nonempty row of that width per synthetic cell. -/
theorem c4_predict_result_shape (env : Env) (st : PertNetState)
    (pl : List (List String)) (cfg : Config) (hcfg : st.config = some cfg)
    (hv : hasInvalidGene st.gene_list pl = false)
    (hshape : ∀ pert ∈ pl,
      predMat env (bestOnDevice st) (ctrlSubset st.adata) cfg.uncertainty pert ≠ [] ∧
        ∀ r ∈ predMat env (bestOnDevice st) (ctrlSubset st.adata) cfg.uncertainty pert,
          r.length = st.num_genes) :
    ∃ res unc, (predict env st pl).2 = .ok (res, unc) ∧
      (res.map Prod.fst).Nodup ∧
      (∀ k, k ∈ res.map Prod.fst ↔ k ∈ pl.map joinPert) ∧
      ∀ kv ∈ res, kv.2.length = st.num_genes := by
  refine ⟨_, _, predict_ok env st pl cfg hv hcfg, ?_, ?_, ?_⟩
  · exact nodup_keys_keyFold _ pl [] (by simp)
  · intro k
    rw [mem_keys_keyFold]
    simp
  · intro kv hkv
    rcases mem_keyFold_val _ _ _ _ hkv with h | ⟨p, hp, rfl⟩
    · simp at h
    · exact colMeans_length _ st.num_genes (hshape p hp).1 (hshape p hp).2

/-- C4, witness: the spec scenario — universe `{A, B, C, D}` and
`predict([[A], [A, B]])` — through the amended theorem. -/
theorem c4_predict_result_shape_witness :
    ∃ res unc, (predict envC stC [[("A")], [("A"), ("B")]]).2 = .ok (res, unc) ∧
      (res.map Prod.fst).Nodup ∧
      (∀ k, k ∈ res.map Prod.fst ↔
        k ∈ ([[("A")], [("A"), ("B")]] : List (List String)).map joinPert) ∧
      ∀ kv ∈ res, kv.2.length = stC.num_genes :=
  c4_predict_result_shape envC stC [[("A")], [("A"), ("B")]] cfgC (by decide)
    (by decide) (by decide)

/- ------------------------------------------------------------------ -/
/- Claim C7.                                                           -/
/- ------------------------------------------------------------------ -/

theorem predict_noconfig (env : Env) (st : PertNetState) (pl : List (List String))
    (hv : hasInvalidGene st.gene_list pl = false) (hc : st.config = none) :
    (predict env st pl).2 = .error ("TypeError: NoneType object is not subscriptable") := by
  simp [predict, hv, hc]

theorem keyFold_congr {α : Type} (f g : List String → α) (pl : List (List String))
    (init : List (String × α)) (h : ∀ p ∈ pl, f p = g p) :
    keyFold f pl init = keyFold g pl init := by
  induction pl generalizing init with
  | nil => rfl
  | cons p rest ih =>
    rw [keyFold_cons, keyFold_cons, h p (List.mem_cons_self p rest)]
    exact ih _ (fun q hq => h q (List.mem_cons_of_mem p hq))

/-- The observable output of `predict` depends only on the dataset, the
gene universe, the Configuration and the on-device best model. -/
theorem predict_depends (env : Env) (st st' : PertNetState) (pl : List (List String))
    (h1 : st'.adata = st.adata) (h2 : st'.gene_list = st.gene_list)
    (h3 : st'.config = st.config) (h4 : bestOnDevice st' = bestOnDevice st) :
    (predict env st' pl).2 = (predict env st pl).2 := by
  by_cases hval : hasInvalidGene st.gene_list pl = true
  · rw [predict_invalid env st' pl (by rw [h2]; exact hval),
      predict_invalid env st pl hval]
  · rw [Bool.not_eq_true] at hval
    cases hcfg : st.config with
    | none =>
      rw [predict_noconfig env st' pl (by rw [h2]; exact hval) (by rw [h3]; exact hcfg),
        predict_noconfig env st pl hval hcfg]
    | some cfg =>
      rw [predict_ok env st' pl cfg (by rw [h2]; exact hval) (by rw [h3]; exact hcfg),
        predict_ok env st pl cfg hval hcfg, h1, h4]

theorem predict_fst_adata (env : Env) (st : PertNetState) (pl : List (List String)) :
    (predict env st pl).1.adata = st.adata := by
  unfold predict
  split
  · rfl
  · split <;> rfl

theorem predict_fst_gene_list (env : Env) (st : PertNetState) (pl : List (List String)) :
    (predict env st pl).1.gene_list = st.gene_list := by
  unfold predict
  split
  · rfl
  · split <;> rfl

theorem predict_fst_config (env : Env) (st : PertNetState) (pl : List (List String)) :
    (predict env st pl).1.config = st.config := by
  unfold predict
  split
  · rfl
  · split <;> rfl

theorem bestOnDevice_set_best (st : PertNetState) (ca : Option AnnData) :
    bestOnDevice
      { st with ctrl_adata := ca, heap := st.heap.set st.bestRef (bestOnDevice st) } =
      bestOnDevice st := by
  show ((st.heap.set st.bestRef (bestOnDevice st)).getD st.bestRef default).toDevice
      st.device = bestOnDevice st
  by_cases hb : st.bestRef < st.heap.length
  · rw [list_getD_set_self _ _ _ _ hb]
    rfl
  · rw [list_set_oob _ _ _ (le_of_not_lt hb)]
    rfl

theorem predict_fst_bestOnDevice (env : Env) (st : PertNetState)
    (pl : List (List String)) :
    bestOnDevice (predict env st pl).1 = bestOnDevice st := by
  unfold predict
  split
  · rfl
  · split
    · rfl
    · exact bestOnDevice_set_best st _

/-- C7 (confirmed): `predict` is deterministic — running it a second
time with the same perturbation list on the state the first call left
behind returns exactly the same output (prediction mapping and, in
uncertainty mode, uncertainty scores); the state mutations `predict`
performs (caching `ctrl_adata`, moving the best model to the device) do
not change the observable result. -/
theorem predict_deterministic (env : Env) (st : PertNetState)
    (pl : List (List String)) :
    (predict env (predict env st pl).1 pl).2 = (predict env st pl).2 :=
  predict_depends env st (predict env st pl).1 pl
    (predict_fst_adata env st pl) (predict_fst_gene_list env st pl)
    (predict_fst_config env st pl) (predict_fst_bestOnDevice env st pl)

/- ------------------------------------------------------------------ -/
/- Claim C10.                                                          -/
/- ------------------------------------------------------------------ -/

/-- C10 (confirmed): `predict` consumes only the first ≤300-element
batch of synthetic cell graphs — two environments whose cell-graph
builders agree on the first 300 graphs per perturbation (and share the
forward pass and `exp`) produce identical `predict` results, whatever
the builders yield beyond position 300. -/
theorem predict_first_batch_only (env1 env2 : Env) (st : PertNetState)
    (pl : List (List String))
    (hf : env1.forward = env2.forward)
    (hfu : env1.forwardUnc = env2.forwardUnc)
    (he : env1.exp = env2.exp)
    (htake : ∀ pert ∈ pl,
      (env1.mkCellGraphs pert (ctrlSubset st.adata)).take 300 =
        (env2.mkCellGraphs pert (ctrlSubset st.adata)).take 300) :
    predict env1 st pl = predict env2 st pl := by
  have hbatch : ∀ p ∈ pl,
      predBatch env1 p (ctrlSubset st.adata) = predBatch env2 p (ctrlSubset st.adata) := by
    intro p hp
    rw [predBatch, predBatch, chunks300_headD, chunks300_headD, htake p hp]
  have hpm : ∀ (u : Bool) (b : Model), ∀ p ∈ pl,
      predMat env1 b (ctrlSubset st.adata) u p = predMat env2 b (ctrlSubset st.adata) u p := by
    intro u b p hp
    cases u <;> simp [predMat, hbatch p hp, hf, hfu]
  have hum : ∀ (b : Model), ∀ p ∈ pl,
      uncMat env1 b (ctrlSubset st.adata) p = uncMat env2 b (ctrlSubset st.adata) p := by
    intro b p hp
    simp [uncMat, hbatch p hp, hfu]
  have hloop : ∀ (u : Bool) (b : Model),
      predictLoop env1 b (ctrlSubset st.adata) u pl =
        predictLoop env2 b (ctrlSubset st.adata) u pl := by
    intro u b
    rw [predictLoop_eq, predictLoop_eq]
    refine congrArg₂ Prod.mk ?_ ?_
    · exact keyFold_congr _ _ pl [] (fun p hp => by rw [hpm u b p hp])
    · cases u
      · rfl
      · simp only [if_true]
        exact keyFold_congr _ _ pl [] (fun p hp => by rw [hum b p hp])
  by_cases hv : hasInvalidGene st.gene_list pl = true
  · simp [predict, hv]
  · rw [Bool.not_eq_true] at hv
    cases hcfg : st.config with
    | none => simp [predict, hv, hcfg]
    | some cfg =>
      simp only [predict, hv, Bool.false_eq_true, if_false, hcfg]
      rw [hloop cfg.uncertainty (bestOnDevice st), he]

/-- C10, witness: two concrete environments yielding 301 synthetic
cells that differ only in cell 301 give identical predictions. -/
theorem predict_first_batch_only_witness :
    predict envA stC [[("A")]] = predict envB stC [[("A")]] :=
  predict_first_batch_only envA envB stC [[("A")]] rfl rfl rfl
    (by
      intro p _
      show (List.replicate 300 ([1, 1, 1, 1] : List ℚ) ++ [[5, 5, 5, 5]]).take 300 =
        (List.replicate 300 ([1, 1, 1, 1] : List ℚ) ++ [[7, 7, 7, 7]]).take 300
      rw [List.take_append_of_le_length (by rw [List.length_replicate]),
        List.take_append_of_le_length (by rw [List.length_replicate])])

/- ------------------------------------------------------------------ -/
/- Claim C9.                                                           -/
/- ------------------------------------------------------------------ -/

/-- C9 (confirmed): in uncertainty mode, `predict` additionally returns,
for each perturbation, the score `np.exp(-np.mean(j))` where `j` is the
columnwise mean of the predicted log-variance matrix — and for a
rectangular matrix that equals `exp(-mean(logvar))`, the mean taken over
all entries of the log-variance output for the synthetic cells of that
perturbation. -/
theorem predict_uncertainty_score (env : Env) (st : PertNetState)
    (pl : List (List String)) (cfg : Config) (pert : List String)
    (hcfg : st.config = some cfg) (hu : cfg.uncertainty = true)
    (hv : hasInvalidGene st.gene_list pl = false)
    (hp : pert ∈ pl) (hnd : (pl.map joinPert).Nodup)
    (hrect : rectangular (uncMat env (bestOnDevice st) (ctrlSubset st.adata) pert)) :
    ∃ res uncRes, (predict env st pl).2 = .ok (res, some uncRes) ∧
      dlookup uncRes (joinPert pert) =
        some (env.exp
          (-(matMean (uncMat env (bestOnDevice st) (ctrlSubset st.adata) pert)))) := by
  have h := predict_ok env st pl cfg hv hcfg
  rw [hu, if_pos rfl] at h
  refine ⟨_, _, h, ?_⟩
  rw [dlookup_map_value _ (fun v => env.exp (-(listMean v))) _,
    dlookup_keyFold _ pl [] pert hp hnd, Option.map_some', listMean_colMeans _ hrect]

/-- C9, witness: the score of the sole perturbation `A` on the concrete
uncertainty-mode instance. -/
theorem predict_uncertainty_score_witness :
    ∃ res uncRes, (predict envC stUC [[("A")]]).2 = .ok (res, some uncRes) ∧
      dlookup uncRes (joinPert [("A")]) =
        some (envC.exp
          (-(matMean (uncMat envC (bestOnDevice stUC) (ctrlSubset stUC.adata) [("A")])))) :=
  predict_uncertainty_score envC stUC [[("A")]] cfgUC [("A")] (by decide) (by decide)
    (by decide) (by decide) (by decide) (by decide)

/- ------------------------------------------------------------------ -/
/- Claim C5.                                                           -/
/- ------------------------------------------------------------------ -/

theorem bestSelect_append (es : List (ℚ × Model)) (e : ℚ × Model) :
    bestSelect (es ++ [e]) = bestUpdate (bestSelect es) e := by
  rw [bestSelect, bestSelect, List.foldl_append]
  rfl

theorem runningMin_append (es : List (ℚ × Model)) (e : ℚ × Model) :
    runningMin (es ++ [e]) =
      match runningMin es with
      | none => some e.1
      | some m => some (min m e.1) := by
  rw [runningMin, runningMin, List.foldl_append]
  rfl

theorem bestSelect_fst_eq_runningMin (es : List (ℚ × Model)) :
    (bestSelect es).1 = runningMin es := by
  induction es using List.reverseRecOn with
  | nil => rfl
  | append_singleton l x ih =>
    rw [bestSelect_append, runningMin_append, bestUpdate, ← ih]
    cases hm : (bestSelect l).1 with
    | none => simp [improves]
    | some m =>
      by_cases hlt : x.1 < m
      · rw [if_pos (by simp [improves, hlt])]
        show some x.1 = some (min m x.1)
        rw [min_eq_right (le_of_lt hlt)]
      · rw [if_neg (by simp [improves, hlt]), hm]
        show some m = some (min m x.1)
        rw [min_eq_left (le_of_not_lt hlt)]

theorem bestSelect_mem (es : List (ℚ × Model)) :
    ∀ m, (bestSelect es).1 = some m →
      ∃ bm, (bestSelect es).2 = some bm ∧ (m, bm) ∈ es := by
  induction es using List.reverseRecOn with
  | nil => intro m h; exact Option.noConfusion h
  | append_singleton l x ih =>
    rw [bestSelect_append, bestUpdate]
    by_cases hi : improves (bestSelect l).1 x.1 = true
    · rw [if_pos hi]
      intro m hm
      obtain rfl : x.1 = m := Option.some.inj hm
      exact ⟨x.2, rfl, by simp⟩
    · rw [if_neg hi]
      intro m hm
      obtain ⟨bm, h2, h3⟩ := ih m hm
      exact ⟨bm, h2, List.mem_append_left _ h3⟩

/-- C5 (confirmed): the checkpoint selection of `train` replaces the best
snapshot exactly on a strict improvement of the validation top-20-DE MSE
over the running minimum (ties leave it untouched); the running minimum
tracked as `min_val` equals the minimum of the scores so far, it never
increases when an epoch is appended, and the retained best model always
comes from an epoch achieving exactly that minimum — never from a
strictly worse epoch. -/
theorem train_best_selection (es : List (ℚ × Model)) (e : ℚ × Model) :
    (bestSelect (es ++ [e]) =
      if improves (bestSelect es).1 e.1 then (some e.1, some e.2) else bestSelect es) ∧
    (bestSelect es).1 = runningMin es ∧
    (∀ m m₀, runningMin (es ++ [e]) = some m → runningMin es = some m₀ → m ≤ m₀) ∧
    (∀ m, (bestSelect es).1 = some m →
      ∃ bm, (bestSelect es).2 = some bm ∧ (m, bm) ∈ es) := by
  refine ⟨?_, bestSelect_fst_eq_runningMin es, ?_, bestSelect_mem es⟩
  · rw [bestSelect_append]
    rfl
  · intro m m₀ h1 h2
    rw [runningMin_append, h2] at h1
    obtain rfl : min m₀ e.1 = m := Option.some.inj h1
    exact min_le_left _ _

/-- C5, witness: a two-epoch run with scores 3 then 2 — the running
minimum drops to 2 and the best model is the snapshot of epoch 2. -/
theorem train_best_selection_witness :
    bestSelect ([(3, mW1)] ++ [(2, mW2)]) = (some 2, some mW2) ∧ (2 : ℚ) ≤ 3 :=
  ⟨by
    rw [(train_best_selection [(3, mW1)] (2, mW2)).1]
    norm_num [bestSelect, bestUpdate, improves],
   (train_best_selection [(3, mW1)] (2, mW2)).2.2.1 2 3 (by decide) (by decide)⟩

/- ------------------------------------------------------------------ -/
/- Claim C6.                                                           -/
/- ------------------------------------------------------------------ -/

/-- C6 (confirmed): in every training step, after the backward pass the
gradients are clipped elementwise into `[-1, 1]`, and the optimizer step
consumes exactly those clipped gradients — no consumed gradient component
exceeds absolute value 1. -/
theorem train_step_gradients_clipped (env : Env) (m : Model)
    (batchY : List (List ℚ)) :
    (trainStep env m batchY).1 = env.optStep m (trainStep env m batchY).2 ∧
    ∀ t ∈ (trainStep env m batchY).2, ∀ x ∈ t, |x| ≤ 1 := by
  constructor
  · rfl
  · intro t ht x hx
    have ht' : t ∈ (env.backward m batchY).map
        (fun t₀ => t₀.map (fun y => min (max y (-(1 : ℚ))) 1)) := ht
    obtain ⟨t₀, _, rfl⟩ := List.mem_map.mp ht'
    obtain ⟨y, _, rfl⟩ := List.mem_map.mp hx
    rw [abs_le]
    constructor
    · exact le_min (le_max_right y (-1)) (by norm_num)
    · exact min_le_right _ _

/-- C6, witness: the raw gradient `[5, -3]` is consumed as `[1, -1]`,
and the theorem bounds its components. -/
theorem train_step_gradients_clipped_witness :
    (trainStep envC mW1 [[5, -3]]).1 =
      envC.optStep mW1 (trainStep envC mW1 [[5, -3]]).2 ∧
    |(-1 : ℚ)| ≤ 1 :=
  ⟨(train_step_gradients_clipped envC mW1 [[5, -3]]).1,
   (train_step_gradients_clipped envC mW1 [[5, -3]]).2 [1, -1] (by decide) (-1) (by decide)⟩

/- ------------------------------------------------------------------ -/
/- Claim C8.                                                           -/
/- ------------------------------------------------------------------ -/

/-- C8, counterexample: after `load_pretrained` the best model is NOT an
independent copy — line 135 assigns `self.best_model = self.model`, so
both references coincide and an in-place mutation of the current model
changes the best model too. -/
theorem c8_load_pretrained_aliases :
    stLoadedC.bestRef = stLoadedC.modelRef ∧
    getBest (mutateCurrent stLoadedC fMutC) ≠ getBest stLoadedC := by
  constructor
  · decide
  · decide

/-- C8 (amended): the best-model snapshot taken by `model_initialize`
(and likewise by the `deepcopy` promotion inside `train`) is a fully
independent copy — it lives in its own heap cell, distinct from the
cell of the current model, so no in-place mutation of the current model can change
it; after `load_pretrained`, however, best and current are the same
object, so the independence claim fails for the restore operation. -/
theorem model_init_best_independent (env : Env) (st : PertNetState) (h : Hyper) :
    (model_init env st h).bestRef ≠ (model_init env st h).modelRef ∧
    ∀ f, getBest (mutateCurrent (model_init env st h) f) =
      getBest (model_init env st h) := by
  have hm : (model_init env st h).modelRef = st.heap.length := rfl
  have hb : (model_init env st h).bestRef = st.heap.length + 1 := rfl
  constructor
  · rw [hm, hb]
    omega
  · intro f
    show ((model_init env st h).heap.set (model_init env st h).modelRef _).getD
        (model_init env st h).bestRef default = getBest (model_init env st h)
    rw [list_getD_set_ne _ _ _ _ _ (by rw [hm, hb]; omega)]
    rfl

/- ------------------------------------------------------------------ -/
/- Claim C1.                                                           -/
/- ------------------------------------------------------------------ -/

theorem model_init_modelRef_lt (env : Env) (st : PertNetState) (h : Hyper) :
    (model_init env st h).modelRef < (model_init env st h).heap.length := by
  have hm : (model_init env st h).modelRef = st.heap.length := rfl
  have hh : (model_init env st h).heap.length = st.heap.length + 2 := by
    simp only [model_init]
    rw [List.length_append]
    rfl
  rw [hm, hh]
  omega

/-- C1 (confirmed): saving an initialized instance and restoring the
directory into a fresh instance succeeds and yields (i) a Configuration
equal to the saved one with exactly the `device` and `num_genes` entries
removed, (ii) a current model whose parameter tensors are identical to
those of the saved best model, and (iii) best and current model holding the
restored weights (they are the same reference after restore).  The
hypotheses say the saved parameter dict is nonempty, its first key does
not carry the data-parallel `module.` wrapper, and the freshly
initialized model exposes the same parameter names as the saved one
(same architecture). -/
theorem save_load_roundtrip (env : Env) (stA stB : PertNetState) (fs : FS)
    (path : String) (cfg : Config)
    (hcfg : stA.config = some cfg)
    (hne : (getBest stA).params ≠ [])
    (hpref : ((getBest stA).params.headD (("") , [])).1.take 7 ≠ ("module."))
    (hkeys : (getCurrent (model_init env stB (stripConfig cfg).toHyper)).params.map
        Prod.fst = (getBest stA).params.map Prod.fst) :
    (save_model stA fs path).2 = none ∧
    ∃ stB',
      load_pretrained env stB (save_model stA fs path).1 path = .ok stB' ∧
      stB'.config = some (stripConfig cfg) ∧
      (getCurrent stB').params = (getBest stA).params ∧
      stB'.bestRef = stB'.modelRef ∧
      (getBest stB').params = (getBest stA).params := by
  have hs2 : (save_model stA fs path).2 = none := by
    simp only [save_model, hcfg]
  have hfiles : (save_model stA fs path).1.files =
      dinsert (dinsert fs.files (path ++ ("/config.pkl")) (FileData.cfg cfg))
        (path ++ ("/model.pt")) (FileData.sd (getBest stA).params) := by
    simp only [save_model, hcfg]
    split <;> rfl
  have hpathne : path ++ ("/config.pkl") ≠ path ++ ("/model.pt") :=
    string_append_ne _ _ _ (by decide)
  have hlc : dlookup (save_model stA fs path).1.files (path ++ ("/config.pkl")) =
      some (FileData.cfg cfg) := by
    rw [hfiles, dlookup_dinsert_ne _ _ _ _ hpathne, dlookup_dinsert_self]
  have hlm : dlookup (save_model stA fs path).1.files (path ++ ("/model.pt")) =
      some (FileData.sd (getBest stA).params) := by
    rw [hfiles, dlookup_dinsert_self]
  obtain ⟨k₀, v₀, rest, hsd⟩ :
      ∃ k₀ v₀ rest, (getBest stA).params = (k₀, v₀) :: rest := by
    cases hps : (getBest stA).params with
    | nil => exact absurd hps hne
    | cons a l => exact ⟨a.1, a.2, l, rfl⟩
  have hpref' : ¬(k₀.take 7 = ("module.")) := by
    rw [hsd] at hpref
    simpa using hpref
  have hkeys' : (getCurrent
      { model_init env stB (stripConfig cfg).toHyper with
          config := some (stripConfig cfg) }).params.map Prod.fst =
      ((k₀, v₀) :: rest).map Prod.fst := by
    rw [← hsd]
    exact hkeys
  refine ⟨hs2, ?_⟩
  unfold load_pretrained
  rw [hlc]
  dsimp only
  rw [hlm]
  dsimp only
  rw [hsd]
  dsimp only
  rw [if_neg hpref']
  dsimp only [load_state_dict]
  split
  · rename_i e hcond
    rw [if_pos hkeys'] at hcond
    exact Except.noConfusion hcond
  · rename_i m₁ hcond
    rw [if_pos hkeys'] at hcond
    obtain rfl := Except.ok.inj hcond
    refine ⟨_, rfl, rfl, ?_, rfl, ?_⟩
    · show (((model_init env stB (stripConfig cfg).toHyper).heap.set
          (model_init env stB (stripConfig cfg).toHyper).modelRef _).getD
          (model_init env stB (stripConfig cfg).toHyper).modelRef default).params =
        (k₀, v₀) :: rest
      rw [list_getD_set_self _ _ _ _ (model_init_modelRef_lt env stB _)]
      rfl
    · show (((model_init env stB (stripConfig cfg).toHyper).heap.set
          (model_init env stB (stripConfig cfg).toHyper).modelRef _).getD
          (model_init env stB (stripConfig cfg).toHyper).modelRef default).params =
        (k₀, v₀) :: rest
      rw [list_getD_set_self _ _ _ _ (model_init_modelRef_lt env stB _)]
      rfl

/-- C1, witness: the concrete initialized instance saved to `dir` and
restored into a fresh instance on the same dataset context. -/
theorem save_load_roundtrip_witness :
    (save_model stC fs0 ("dir")).2 = none ∧
    ∃ stB',
      load_pretrained envC st0C (save_model stC fs0 ("dir")).1 ("dir") = .ok stB' ∧
      stB'.config = some (stripConfig cfgC) ∧
      (getCurrent stB').params = (getBest stC).params ∧
      stB'.bestRef = stB'.modelRef ∧
      (getBest stB').params = (getBest stC).params :=
  save_load_roundtrip envC stC st0C fs0 ("dir") cfgC (by decide) (by decide)
    (by decide) (by decide)

/-- C8, witness for the amended theorem: the concrete initialized
instance keeps its best snapshot intact under a concrete in-place
mutation of the current model. -/
theorem model_init_best_independent_witness :
    (model_init envC st0C hC).bestRef ≠ (model_init envC st0C hC).modelRef ∧
    getBest (mutateCurrent (model_init envC st0C hC) fMutC) =
      getBest (model_init envC st0C hC) :=
  ⟨(model_init_best_independent envC st0C hC).1,
   (model_init_best_independent envC st0C hC).2 fMutC⟩
